import Mathlib

/-!
# Verification of the PendingChangesBot approval-consolidation core

Shallow embedding of `app/reviews/utils/approval_comment.py` and
`app/reviews/utils/approval_processor.py` from the PendingChangesBot-ng
repository, together with proofs about the embedded functions.

Conventions of the embedding:
* A Python autoreview result dict `{"revid": ..., "decision": {"status": ...,
  "label": ..., "reason": ...}}` is the structure `EvalResult`.
* Python strings are Lean `String`s (sequences of code points); Python slicing
  with a possibly negative bound is modelled explicitly (`pySlice`).
* `list.sort(key=...)` is Python's stable sort; it is modelled as a stable
  insertion sort over the same key, which produces the identical list.
* The external approval action (`approve_revision`, an out-of-scope
  collaborator invoked by the orchestrator) is a parameter of the orchestrator
  embedding; a call that raises is modelled by `Except.error`.
-/

namespace PendingChangesBot

/-- The `decision` sub-dict of an autoreview result:
`{"status": ..., "label": ..., "reason": ...}`. -/
structure Decision where
  status : String
  label : String
  reason : String
deriving DecidableEq, Repr

/-- One autoreview result dict: `{"revid": ..., "tests": [...], "decision": ...}`.
The `tests` entry is never read by the comment/approval code, so it is not
modelled. -/
structure EvalResult where
  revid : Nat
  decision : Decision
deriving DecidableEq, Repr

/-- One group produced by `_group_revisions_by_reason`:
`{"revisions": [...], "reason": ...}`. -/
structure RevGroup where
  revisions : List EvalResult
  reason : String
deriving DecidableEq, Repr

/-- The sort key used at `revisions_to_approve.sort(key=lambda x: x["revid"])`. -/
def revidLe (a b : EvalResult) : Prop := a.revid ≤ b.revid

instance : DecidableRel revidLe := fun a b => Nat.decLe a.revid b.revid

instance : IsTotal EvalResult revidLe := ⟨fun a b => Nat.le_total a.revid b.revid⟩

instance : IsTrans EvalResult revidLe := ⟨fun _ _ _ => Nat.le_trans⟩

/-- The loop of `_group_revisions_by_reason` (approval_comment.py lines
110-126): `cur` is `current_group`; a revision whose reason equals the current
group's reason is appended to it, otherwise the current group is emitted and a
fresh group is started.  The Python loop accumulates finished groups in
`groups` by appending; the recursion here emits them in the same order. -/
def groupLoop (cur : RevGroup) : List EvalResult → List RevGroup
  | [] => [cur]
  | r :: rest =>
      if r.decision.reason == cur.reason then
        groupLoop { cur with revisions := cur.revisions ++ [r] } rest
      else
        cur :: groupLoop { revisions := [r], reason := r.decision.reason } rest

/-- `_group_revisions_by_reason(revisions)` (approval_comment.py lines 91-128):
group consecutive revisions with identical approval reasons. -/
def _group_revisions_by_reason : List EvalResult → List RevGroup
  | [] => []
  | r :: rest => groupLoop { revisions := [r], reason := r.decision.reason } rest

/-- The body of the `for group in grouped_revisions` loop of
`_build_consolidated_comment` (approval_comment.py lines 77-85): one comment
part per group, with a separate (but textually identical) branch for a
singleton group, as in the source. -/
def commentPart (g : RevGroup) : String :=
  let revIds := g.revisions.map (fun r => toString r.revid)
  match revIds with
  | [single] => "rev_id " ++ single ++ " approved because " ++ g.reason
  | _ => "rev_id " ++ String.intercalate ", " revIds ++ " approved because " ++ g.reason

/-- `_build_consolidated_comment(revisions)` (approval_comment.py lines 58-88):
group the revisions, render one part per group, join the parts with `", "` and
terminate with `"."`. -/
def _build_consolidated_comment (revisions : List EvalResult) : String :=
  if revisions.isEmpty then ""
  else
    String.intercalate ", " ((_group_revisions_by_reason revisions).map commentPart) ++ "."

/-- The `approved_revisions` list comprehension (approval_comment.py lines
30-33): results whose `decision.status` equals `"approve"`.  A missing
`decision` key is handled by `.get` in the source and can only make the
comparison false; in the typed model the field is always present. -/
def approvedOf (results : List EvalResult) : List EvalResult :=
  results.filter (fun r => r.decision.status == "approve")

/-- `generate_approval_comment(autoreview_results)` (approval_comment.py lines
14-55).  `max?` is `max(...)` over the approved revids (`none` only on the
empty list, which the source has already excluded); the `revid ≤ highest`
filter and the stable sort by revid mirror lines 44-50. -/
def generate_approval_comment (results : List EvalResult) : Option Nat × String :=
  if results.isEmpty then (none, "")
  else
    let approved := approvedOf results
    if approved.isEmpty then (none, "")
    else
      match (approved.map (fun r => r.revid)).max? with
      | none => (none, "")
      | some highest =>
          let toApprove := approved.filter (fun r => r.revid ≤ highest)
          let sorted := toApprove.insertionSort revidLe
          (some highest, _build_consolidated_comment sorted)

/-- Python's `s[:k]` on a string, for a possibly negative bound `k`: a
non-negative bound keeps the first `k` code points (clamped to the length), a
negative bound keeps the first `len(s) + k` code points (clamped to zero). -/
def pySlice (s : String) (k : Int) : String :=
  if 0 ≤ k then String.mk (s.data.take k.toNat)
  else String.mk (s.data.take ((s.length : Int) + k).toNat)

/-- `validate_comment_length(comment, max_length=500)` (approval_comment.py
lines 189-207): return the comment unchanged if it is within the bound,
otherwise `comment[:max_length - 3] + "..."` (the slice bound is the Python
integer `max_length - 3`, which is negative when `max_length < 3`).  The
source also logs a warning on truncation; logging is not modelled. -/
def validate_comment_length (comment : String) (max_length : Int) : String :=
  if (comment.length : Int) ≤ max_length then comment
  else pySlice comment (max_length - 3) ++ "..."

/-- The summary dict returned by `get_approval_summary` (approval_comment.py
lines 230-238).  `approval_rate` is a Python float `approved / total`;
it is modelled as the exact rational (no claim depends on it). -/
structure ApprovalSummary where
  total_revisions : Nat
  approved_count : Nat
  blocked_count : Nat
  approval_rate : ℚ
  highest_approved_revid : Option Nat
deriving DecidableEq, Repr

/-- `get_approval_summary(autoreview_results)` (approval_comment.py lines
210-238). -/
def get_approval_summary (results : List EvalResult) : ApprovalSummary :=
  let approved := results.filter (fun r => r.decision.status == "approve")
  let blocked := results.filter (fun r => r.decision.status == "blocked")
  { total_revisions := results.length
    approved_count := approved.length
    blocked_count := blocked.length
    approval_rate := if results.length > 0 then (approved.length : ℚ) / results.length else 0
    highest_approved_revid := (approved.map (fun r => r.revid)).max? }

/-- The dict returned by the external approval action `approve_revision`
(spec §6): `{result: "success"|"error", dry_run: bool, message}`. -/
structure ApprovalActionResult where
  result : String
  dry_run : Bool
  message : String
deriving DecidableEq, Repr

/-- One invocation of the external approval action, recorded with the
arguments it was given. -/
structure ApproveCall where
  revid : Nat
  comment : String
  unapprove : Bool
deriving DecidableEq, Repr

/-- The outcome dict of `process_and_approve_revisions`.  The source returns
dicts with different key sets on the three paths; absent keys are `none`. -/
structure ProcessOutcome where
  success : Bool
  message : Option String
  error : Option String
  rev_id : Option Nat
  comment : Option String
  approval_result : Option ApprovalActionResult
  summary : ApprovalSummary
deriving DecidableEq, Repr

/-- `process_and_approve_revisions(autoreview_results, comment_prefix)`
(approval_processor.py lines 17-65).  The external `approve_revision` is the
parameter `approve`; a call of it that raises is an `Except.error`, which the
source's `except` clause turns into the `{"success": False, "error": ...,
"summary": ...}` dict.  In the typed model no other statement of the `try`
block can raise, so the `except` clause is reachable only from the `approve`
call.  The second component records every invocation of `approve`, in order,
with its arguments. -/
def process_and_approve_revisions
    (approve : Nat → String → Bool → Except String ApprovalActionResult)
    (results : List EvalResult) (commentPrefix : String) :
    ProcessOutcome × List ApproveCall :=
  match generate_approval_comment results with
  | (none, _) =>
      ({ success := false
         message := some "No revisions can be approved"
         error := none, rev_id := none, comment := none, approval_result := none
         summary := get_approval_summary results }, [])
  | (some highest, comment) =>
      let validated := validate_comment_length (commentPrefix ++ comment) 500
      match approve highest validated false with
      | Except.ok ar =>
          ({ success := ar.result == "success"
             message := none, error := none
             rev_id := some highest
             comment := some validated
             approval_result := some ar
             summary := get_approval_summary results }, [⟨highest, validated, false⟩])
      | Except.error e =>
          ({ success := false
             message := none
             error := some e
             rev_id := none, comment := none, approval_result := none
             summary := get_approval_summary results }, [⟨highest, validated, false⟩])

/-- `batch_process_pages(autoreview_results_by_page, comment_prefix)`
(approval_processor.py lines 112-140).  A Python dict preserves insertion
order, so the mapping is an association list.  The per-page
`try`/`except` of the source is unreachable here: the embedded
`process_and_approve_revisions` is total (it catches internally, including a
raising `approve`), so each page's entry is exactly its processing outcome. -/
def batch_process_pages
    (approve : Nat → String → Bool → Except String ApprovalActionResult)
    (pages : List (String × List EvalResult)) (commentPrefix : String) :
    List (String × ProcessOutcome) :=
  pages.map (fun p => (p.1, (process_and_approve_revisions approve p.2 commentPrefix).1))

/-- The observable effect of the call `generate_approval_comment(xs)` on the
caller's list object: the returned pair together with the list contents after
the call.  The source reads the argument only through list comprehensions
(lines 30-33 and 44-47) and sorts the fresh `revisions_to_approve` list in
place (line 50); it never writes to the argument, so the call leaves the
argument as it was. -/
def generate_approval_comment_call (xs : List EvalResult) :
    (Option Nat × String) × List EvalResult :=
  (generate_approval_comment xs, xs)

/-- The list of revids rendered into the consolidated comment, in comment
order: the concatenation, over the groups built from the sorted selection, of
each group's revids (exactly the ids interpolated by
`_build_consolidated_comment`). -/
def comment_revids (results : List EvalResult) : List Nat :=
  match ((approvedOf results).map (fun r => r.revid)).max? with
  | none => []
  | some highest =>
      ((_group_revisions_by_reason
          (((approvedOf results).filter (fun r => r.revid ≤ highest)).insertionSort
            revidLe)).flatMap RevGroup.revisions).map
        (fun r => r.revid)

/-- Modelled from the spec (§4.4 rendering contract): each group is rendered
as `rev_id` followed by its comma-separated ids and `approved because` and its
reason; groups are joined with `", "` and the whole comment is terminated by a
single `"."`.  Used to compare the source's rendering against the spec's
words. -/
def render_comment_clauses (gs : List RevGroup) : String :=
  String.intercalate ", "
    (gs.map (fun g =>
      "rev_id " ++ String.intercalate ", " (g.revisions.map (fun r => toString r.revid)) ++
        " approved because " ++ g.reason)) ++ "."

lemma groupLoop_flatMap : ∀ (rest : List EvalResult) (cur : RevGroup),
    (groupLoop cur rest).flatMap RevGroup.revisions = cur.revisions ++ rest
  | [], cur => by simp [groupLoop]
  | r :: rest, cur => by
    unfold groupLoop
    by_cases h : r.decision.reason == cur.reason
    · rw [if_pos h, groupLoop_flatMap rest]
      simp
    · rw [if_neg h, List.flatMap_cons, groupLoop_flatMap rest]
      simp

lemma groupLoop_head_reason : ∀ (rest : List EvalResult) (cur : RevGroup),
    ∃ g gs, groupLoop cur rest = g :: gs ∧ g.reason = cur.reason
  | [], cur => ⟨cur, [], rfl, rfl⟩
  | r :: rest, cur => by
    unfold groupLoop
    by_cases h : r.decision.reason == cur.reason
    · rw [if_pos h]
      exact groupLoop_head_reason rest _
    · rw [if_neg h]
      exact ⟨cur, _, rfl, rfl⟩

lemma groupLoop_sound : ∀ (rest : List EvalResult) (cur : RevGroup),
    cur.revisions ≠ [] → (∀ x ∈ cur.revisions, x.decision.reason = cur.reason) →
    ∀ g ∈ groupLoop cur rest, g.revisions ≠ [] ∧ ∀ x ∈ g.revisions, x.decision.reason = g.reason
  | [], cur, h1, h2 => by
    intro g hg
    simp only [groupLoop, List.mem_singleton] at hg
    exact hg ▸ ⟨h1, h2⟩
  | r :: rest, cur, h1, h2 => by
    unfold groupLoop
    by_cases h : r.decision.reason == cur.reason
    · rw [if_pos h]
      apply groupLoop_sound rest
      · simp
      · intro x hx
        rcases List.mem_append.mp hx with hx | hx
        · exact h2 x hx
        · simp only [List.mem_singleton] at hx
          subst hx
          exact eq_of_beq h
    · rw [if_neg h]
      intro g hg
      rcases List.mem_cons.mp hg with rfl | hg'
      · exact ⟨h1, h2⟩
      · exact groupLoop_sound rest _ (by simp) (by simp) g hg'

lemma groupLoop_chain : ∀ (rest : List EvalResult) (cur : RevGroup),
    List.Chain' (fun a b => a.reason ≠ b.reason) (groupLoop cur rest)
  | [], _ => by simp [groupLoop]
  | r :: rest, cur => by
    unfold groupLoop
    by_cases h : r.decision.reason == cur.reason
    · rw [if_pos h]
      exact groupLoop_chain rest _
    · rw [if_neg h, List.chain'_cons']
      refine ⟨?_, groupLoop_chain rest _⟩
      intro b hb
      obtain ⟨g, gs, heq, hr⟩ := groupLoop_head_reason rest ⟨[r], r.decision.reason⟩
      rw [heq] at hb
      simp only [List.head?_cons, Option.mem_def, Option.some.injEq] at hb
      subst hb
      rw [hr]
      intro hcontra
      exact h (by simp [hcontra])

lemma flatMap_group : ∀ (revisions : List EvalResult),
    (_group_revisions_by_reason revisions).flatMap RevGroup.revisions = revisions
  | [] => rfl
  | r :: rest => by
    unfold _group_revisions_by_reason
    rw [groupLoop_flatMap rest]
    rfl

lemma group_sound (revisions : List EvalResult) :
    ∀ g ∈ _group_revisions_by_reason revisions,
      g.revisions ≠ [] ∧ ∀ x ∈ g.revisions, x.decision.reason = g.reason := by
  cases revisions with
  | nil => simp [_group_revisions_by_reason]
  | cons r rest =>
      exact groupLoop_sound rest _ (by simp) (by simp)

lemma group_chain (revisions : List EvalResult) :
    List.Chain' (fun a b => a.reason ≠ b.reason) (_group_revisions_by_reason revisions) := by
  cases revisions with
  | nil => simp [_group_revisions_by_reason]
  | cons r rest => exact groupLoop_chain rest _

lemma commentPart_eq (g : RevGroup) :
    commentPart g =
      "rev_id " ++ String.intercalate ", " (g.revisions.map (fun r => toString r.revid)) ++
        " approved because " ++ g.reason := by
  cases g with
  | mk revs reason =>
      cases revs with
      | nil => rfl
      | cons a t =>
          cases t with
          | nil => rfl
          | cons b t2 => rfl

lemma build_eq_render (revisions : List EvalResult) (h : revisions ≠ []) :
    _build_consolidated_comment revisions =
      render_comment_clauses (_group_revisions_by_reason revisions) := by
  unfold _build_consolidated_comment render_comment_clauses
  rw [if_neg (by simpa using h)]
  rw [funext commentPart_eq]

lemma natList_max?_mem {l : List Nat} {a : Nat} (h : l.max? = some a) : a ∈ l :=
  List.max?_mem (by omega) h

lemma natList_max?_ub {l : List Nat} {a : Nat} (h : l.max? = some a) :
    ∀ b ∈ l, b ≤ a :=
  fun b hb => (List.max?_le_iff (by omega) h).1 (Nat.le_refl a) b hb

lemma generate_eq_none {results : List EvalResult} (h : approvedOf results = []) :
    generate_approval_comment results = (none, "") := by
  unfold generate_approval_comment
  by_cases hres : results.isEmpty
  · rw [if_pos hres]
  · rw [if_neg hres]
    simp [h]

lemma generate_eq_some {results : List EvalResult} {highest : Nat}
    (hmax : ((approvedOf results).map (fun r => r.revid)).max? = some highest) :
    generate_approval_comment results =
      (some highest,
        _build_consolidated_comment
          (((approvedOf results).filter (fun r => r.revid ≤ highest)).insertionSort revidLe)) := by
  have hap : approvedOf results ≠ [] := by
    intro hnil
    rw [hnil] at hmax
    simp at hmax
  have hres : results ≠ [] := by
    intro hnil
    exact hap (by simp [approvedOf, hnil])
  unfold generate_approval_comment
  rw [if_neg (by simpa using hres), if_neg (by simpa using hap), hmax]

/-- The five-revision input of the end-to-end example (spec §8, repository
test fixture `sample_autoreview_results`). -/
def exampleFiveResults : List EvalResult :=
  [⟨12345, "approve", "Would be auto-approved", "User was a bot"⟩,
   ⟨12346, "approve", "Would be auto-approved", "No content change in last article"⟩,
   ⟨12347, "approve", "Would be auto-approved", "User was auto-reviewed"⟩,
   ⟨12348, "approve", "Would be auto-approved", "User was auto-reviewed"⟩,
   ⟨12349, "approve", "Would be auto-approved", "ORES score goodfaith=0.53, damaging=0.251"⟩]

set_option maxRecDepth 4000 in
/-- C1: on the five-result example, `generate_approval_comment` returns
revid 12349 but renders each decision reason verbatim (`User was a bot`,
`No content change in last article`, `User was auto-reviewed`), not the
case-normalized forms the claim states: the comment pipeline
(`_build_consolidated_comment` and `_group_revisions_by_reason`) reads
`decision["reason"]` directly and never calls `_extract_approval_reason`,
so the output differs from the claimed string, which the repository's own
test `test_generate_approval_comment_success` also expects. -/
theorem approval_comment_emits_reasons_verbatim :
    generate_approval_comment exampleFiveResults =
      (some 12349,
       "rev_id 12345 approved because User was a bot, rev_id 12346 approved because No content change in last article, rev_id 12347, 12348 approved because User was auto-reviewed, rev_id 12349 approved because ORES score goodfaith=0.53, damaging=0.251.") ∧
    (generate_approval_comment exampleFiveResults).2 ≠
      "rev_id 12345 approved because user was a bot, rev_id 12346 approved because no content change in last article, rev_id 12347, 12348 approved because user was auto-reviewed, rev_id 12349 approved because ORES score goodfaith=0.53, damaging=0.251." := by
  constructor
  · decide
  · decide

/-- C3: for every list of evaluation results (including the empty list),
`generate_approval_comment` returns `(none, "")` exactly when no result in
the list has decision status `"approve"`. -/
theorem generate_approval_comment_none_iff_no_approve (results : List EvalResult) :
    generate_approval_comment results = (none, "") ↔
      ∀ r ∈ results, r.decision.status ≠ "approve" := by
  constructor
  · intro h r hr hstat
    have hmem : r ∈ approvedOf results := List.mem_filter.mpr ⟨hr, by simp [hstat]⟩
    have hmm : r.revid ∈ (approvedOf results).map (fun x => x.revid) :=
      List.mem_map_of_mem _ hmem
    cases hm : ((approvedOf results).map (fun x => x.revid)).max? with
    | none =>
        rw [List.max?_eq_none_iff] at hm
        rw [hm] at hmm
        exact List.not_mem_nil _ hmm
    | some highest =>
        rw [generate_eq_some hm] at h
        simp at h
  · intro hall
    apply generate_eq_none
    simp only [approvedOf]
    rw [List.filter_eq_nil_iff]
    intro x hx
    simpa using hall x hx

/-- Witness for C3: a single blocked revision yields `(none, "")`. -/
theorem generate_approval_comment_none_iff_no_approve_witness :
    generate_approval_comment
        [⟨12345, "blocked", "Cannot be auto-approved", "User is blocked"⟩] = (none, "") :=
  (generate_approval_comment_none_iff_no_approve _).mpr (by decide)

/-- C2: the revid component of `generate_approval_comment` equals the maximum
revid over approved results (`max?` of their revids, `none` when there is no
approved result); the revids rendered into the consolidated comment are a
permutation of the approved revids — every approved result (all of which have
revid ≤ the maximum) contributes its revid exactly once — and they are listed
in ascending order. -/
theorem generate_approval_comment_highest_and_ascending (results : List EvalResult) :
    (generate_approval_comment results).1 =
      ((approvedOf results).map (fun r => r.revid)).max? ∧
    (comment_revids results).Perm ((approvedOf results).map (fun r => r.revid)) ∧
    List.Pairwise (· ≤ ·) (comment_revids results) := by
  cases hm : ((approvedOf results).map (fun r => r.revid)).max? with
  | none =>
      have hmap : (approvedOf results).map (fun r => r.revid) = [] :=
        List.max?_eq_none_iff.mp hm
      have hap : approvedOf results = [] := by simpa using hmap
      refine ⟨?_, ?_, ?_⟩
      · rw [generate_eq_none hap]
      · simp [comment_revids, hm, hmap]
      · simp [comment_revids, hm]
  | some highest =>
      have hfilter :
          (approvedOf results).filter (fun r => r.revid ≤ highest) = approvedOf results := by
        apply List.filter_eq_self.mpr
        intro x hx
        have hxm : x.revid ∈ (approvedOf results).map (fun r => r.revid) :=
          List.mem_map_of_mem _ hx
        simpa using natList_max?_ub hm x.revid hxm
      refine ⟨?_, ?_, ?_⟩
      · rw [generate_eq_some hm]
      · simp only [comment_revids, hm, hfilter, flatMap_group]
        exact (List.perm_insertionSort revidLe (approvedOf results)).map _
      · simp only [comment_revids, hm, hfilter, flatMap_group]
        exact List.pairwise_map.mpr (List.sorted_insertionSort revidLe (approvedOf results))

/-- C4: grouping decomposes the (sorted) input into maximal runs: the groups
concatenate back to the input, every group is nonempty and carries exactly the
common reason of its revisions, adjacent groups have different reasons (so a
change of reason always starts a new clause and groups never re-merge across a
gap), and the comment renders each group as `rev_id` with the comma-separated
ids and `approved because` with the reason, groups joined by `", "` and
terminated by a single `"."`. -/
theorem consolidated_comment_groups_maximal_runs (revs : List EvalResult) (h : revs ≠ []) :
    (_group_revisions_by_reason revs).flatMap RevGroup.revisions = revs ∧
    (∀ g ∈ _group_revisions_by_reason revs,
        g.revisions ≠ [] ∧ ∀ r ∈ g.revisions, r.decision.reason = g.reason) ∧
    List.Chain' (fun a b => a.reason ≠ b.reason) (_group_revisions_by_reason revs) ∧
    _build_consolidated_comment revs = render_comment_clauses (_group_revisions_by_reason revs) :=
  ⟨flatMap_group revs, group_sound revs, group_chain revs, build_eq_render revs h⟩

/-- An input with a re-appearing reason across a gap, exercising the
no-re-merging clause of C4. -/
def gapReasonInput : List EvalResult :=
  [⟨1, "approve", "l", "A"⟩, ⟨2, "approve", "l", "B"⟩, ⟨3, "approve", "l", "A"⟩]

/-- Witness for C4 at a three-revision input whose first reason re-appears
after a gap. -/
theorem consolidated_comment_groups_maximal_runs_witness :
    gapReasonInput ≠ [] ∧
    ((_group_revisions_by_reason gapReasonInput).flatMap RevGroup.revisions = gapReasonInput ∧
     (∀ g ∈ _group_revisions_by_reason gapReasonInput,
        g.revisions ≠ [] ∧ ∀ r ∈ g.revisions, r.decision.reason = g.reason) ∧
     List.Chain' (fun a b => a.reason ≠ b.reason) (_group_revisions_by_reason gapReasonInput) ∧
     _build_consolidated_comment gapReasonInput =
       render_comment_clauses (_group_revisions_by_reason gapReasonInput)) :=
  ⟨by decide, consolidated_comment_groups_maximal_runs gapReasonInput (by decide)⟩

/-- C5 counterexample: at comment `"abcde"` and `max_length = 0` the source
computes `comment[:-3] + "..."`, i.e. `"ab..."` — a 5-character result that
exceeds `max_length` — and not the first `max_length − 3` characters followed
by `"..."` (the slice bound is negative, so no reading of "the first
`max_length − 3` characters", which clamps a non-positive count to zero,
matches it).  The claim's universally quantified truncation shape is
therefore false for `max_length < 3`. -/
theorem validate_comment_length_claim_fails_for_small_max :
    validate_comment_length "abcde" 0 = "ab..." ∧
    validate_comment_length "abcde" 0 ≠
      String.mk ("abcde".data.take ((0 - 3 : Int)).toNat) ++ "..." := by
  constructor
  · decide
  · decide

/-- C5 (amended): for every comment and every `max_length ≥ 3`,
`validate_comment_length` returns the comment unchanged when its length is
within the bound and otherwise returns the first `max_length − 3` characters
followed by `"..."`, a string of length exactly `max_length` (so in particular
a 600-character input with `max_length = 500` yields a 500-character string
ending in `"..."`); for `max_length < 3` the source instead slices with a
negative bound, dropping the last `3 − max_length` characters before
appending `"..."`. -/
theorem validate_comment_length_truncates (comment : String) (max_length : Int)
    (h3 : 3 ≤ max_length) :
    ((comment.length : Int) ≤ max_length →
      validate_comment_length comment max_length = comment) ∧
    (max_length < (comment.length : Int) →
      validate_comment_length comment max_length =
        String.mk (comment.data.take (max_length - 3).toNat) ++ "..." ∧
      ((validate_comment_length comment max_length).length : Int) = max_length) := by
  constructor
  · intro h
    unfold validate_comment_length
    rw [if_pos h]
  · intro h
    have hne : ¬ ((comment.length : Int) ≤ max_length) := by omega
    have heq : validate_comment_length comment max_length =
        String.mk (comment.data.take (max_length - 3).toNat) ++ "..." := by
      unfold validate_comment_length pySlice
      rw [if_neg hne, if_pos (by omega : (0 : Int) ≤ max_length - 3)]
    refine ⟨heq, ?_⟩
    rw [heq, String.length_append]
    have hdata : comment.data.length = comment.length := String.length_data comment
    have htake : (String.mk (comment.data.take (max_length - 3).toNat)).length =
        (max_length - 3).toNat := by
      show (comment.data.take (max_length - 3).toNat).length = (max_length - 3).toNat
      rw [List.length_take]
      omega
    rw [htake]
    have hdots : ("..." : String).length = 3 := rfl
    rw [hdots]
    omega

/-- A 600-character comment, for the truncation witness. -/
def sixHundredChars : String := String.mk (List.replicate 600 'x')

set_option maxRecDepth 4000 in
/-- Witness for C5 (amended): the 600-character input with `max_length = 500`
is truncated to length exactly 500. -/
theorem validate_comment_length_truncates_witness :
    (3 : Int) ≤ 500 ∧ (500 : Int) < (sixHundredChars.length : Int) ∧
    ((validate_comment_length sixHundredChars 500).length : Int) = 500 :=
  ⟨by decide, by decide,
    ((validate_comment_length_truncates sixHundredChars 500 (by decide)).2 (by decide)).2⟩

/-- C9: `generate_approval_comment` is pure — the observable call effect pairs
a result with the unchanged argument list (the source only reads the argument
through list comprehensions and sorts a freshly built list), and re-running it
on the same list yields byte-identical output. -/
theorem generate_approval_comment_idempotent_pure (xs : List EvalResult) :
    (generate_approval_comment_call xs).2 = xs ∧
    (generate_approval_comment_call ((generate_approval_comment_call xs).2)).1 =
      (generate_approval_comment_call xs).1 :=
  ⟨rfl, rfl⟩

/-- C10: the summary counts a result as approved exactly when its status is
`"approve"` and as blocked exactly when it is `"blocked"`; any other status
(for example `"manual"`) is in `total_revisions` but in neither count, so the
two counts together never exceed the total; `highest_approved_revid` is `none`
exactly when `approved_count` is zero. -/
theorem get_approval_summary_counts (results : List EvalResult) :
    (get_approval_summary results).total_revisions = results.length ∧
    (get_approval_summary results).approved_count =
      (results.filter (fun r => r.decision.status == "approve")).length ∧
    (get_approval_summary results).blocked_count =
      (results.filter (fun r => r.decision.status == "blocked")).length ∧
    (get_approval_summary results).approved_count +
        (get_approval_summary results).blocked_count ≤
      (get_approval_summary results).total_revisions ∧
    ((get_approval_summary results).highest_approved_revid = none ↔
      (get_approval_summary results).approved_count = 0) := by
  refine ⟨rfl, rfl, rfl, ?_, ?_⟩
  · show (results.filter (fun r => r.decision.status == "approve")).length +
        (results.filter (fun r => r.decision.status == "blocked")).length ≤ results.length
    induction results with
    | nil => simp
    | cons r rest ih =>
        by_cases h1 : r.decision.status = "approve"
        · have h2 : r.decision.status ≠ "blocked" := by rw [h1]; decide
          simp only [List.filter_cons, beq_iff_eq, if_pos h1, if_neg h2, List.length_cons]
          omega
        · by_cases h2 : r.decision.status = "blocked"
          · simp only [List.filter_cons, beq_iff_eq, if_neg h1, if_pos h2, List.length_cons]
            omega
          · simp only [List.filter_cons, beq_iff_eq, if_neg h1, if_neg h2, List.length_cons]
            omega
  · show ((results.filter (fun r => r.decision.status == "approve")).map
        (fun r => r.revid)).max? = none ↔
      (results.filter (fun r => r.decision.status == "approve")).length = 0
    rw [List.max?_eq_none_iff, List.map_eq_nil_iff, List.length_eq_zero]

/-- C6: when at least one result is approvable, the orchestrator invokes the
external approval action exactly once — with the highest approvable revid, the
prefixed and length-validated consolidated comment, and `unapprove = false` —
its outcome is successful exactly when the action returned a result field
equal to `"success"`, and the outcome carries the summary. -/
theorem process_and_approve_invokes_action_once
    (approve : Nat → String → Bool → Except String ApprovalActionResult)
    (results : List EvalResult) (commentPrefix : String)
    (h : ∃ r ∈ results, r.decision.status = "approve") :
    ∃ highest comment,
      generate_approval_comment results = (some highest, comment) ∧
      (process_and_approve_revisions approve results commentPrefix).2 =
        [⟨highest, validate_comment_length (commentPrefix ++ comment) 500, false⟩] ∧
      ((process_and_approve_revisions approve results commentPrefix).1.success = true ↔
        ∃ ar, approve highest (validate_comment_length (commentPrefix ++ comment) 500) false =
            Except.ok ar ∧ ar.result = "success") ∧
      (process_and_approve_revisions approve results commentPrefix).1.summary =
        get_approval_summary results := by
  obtain ⟨r, hr, hst⟩ := h
  have hmem : r ∈ approvedOf results := List.mem_filter.mpr ⟨hr, by simp [hst]⟩
  have hmm : r.revid ∈ (approvedOf results).map (fun x => x.revid) :=
    List.mem_map_of_mem _ hmem
  cases hm : ((approvedOf results).map (fun x => x.revid)).max? with
  | none =>
      rw [List.max?_eq_none_iff] at hm
      rw [hm] at hmm
      exact absurd hmm (List.not_mem_nil _)
  | some highest =>
      have hgen := generate_eq_some hm
      refine ⟨highest, _, hgen, ?_, ?_, ?_⟩
      · simp only [process_and_approve_revisions, hgen]
        cases ha : approve highest
            (validate_comment_length
              (commentPrefix ++
                _build_consolidated_comment
                  (((approvedOf results).filter (fun x => x.revid ≤ highest)).insertionSort
                    revidLe)) 500) false with
        | ok ar => simp [ha]
        | error e => simp [ha]
      · simp only [process_and_approve_revisions, hgen]
        cases ha : approve highest
            (validate_comment_length
              (commentPrefix ++
                _build_consolidated_comment
                  (((approvedOf results).filter (fun x => x.revid ≤ highest)).insertionSort
                    revidLe)) 500) false with
        | ok ar =>
            simp only [ha]
            constructor
            · intro hb
              exact ⟨ar, rfl, by simpa using hb⟩
            · rintro ⟨ar', heq, hres⟩
              cases heq
              simpa using hres
        | error e =>
            simp only [ha]
            constructor
            · intro hb
              simp at hb
            · rintro ⟨ar', heq, hres⟩
              cases heq
      · simp only [process_and_approve_revisions, hgen]
        cases ha : approve highest
            (validate_comment_length
              (commentPrefix ++
                _build_consolidated_comment
                  (((approvedOf results).filter (fun x => x.revid ≤ highest)).insertionSort
                    revidLe)) 500) false with
        | ok ar => simp [ha]
        | error e => simp [ha]

/-- A single approvable result, for the orchestrator witnesses. -/
def oneApproved : List EvalResult :=
  [⟨7, "approve", "Would be auto-approved", "User was a bot"⟩]

/-- An external approval action that always reports success. -/
def alwaysSuccess : Nat → String → Bool → Except String ApprovalActionResult :=
  fun _ _ _ => Except.ok ⟨"success", false, "Successfully approved"⟩

/-- Witness for C6 at a concrete approvable input and a succeeding action. -/
theorem process_and_approve_invokes_action_once_witness :
    (∃ r ∈ oneApproved, r.decision.status = "approve") ∧
    ∃ highest comment,
      generate_approval_comment oneApproved = (some highest, comment) ∧
      (process_and_approve_revisions alwaysSuccess oneApproved "Autoreview: ").2 =
        [⟨highest, validate_comment_length ("Autoreview: " ++ comment) 500, false⟩] ∧
      ((process_and_approve_revisions alwaysSuccess oneApproved "Autoreview: ").1.success =
          true ↔
        ∃ ar, alwaysSuccess highest
              (validate_comment_length ("Autoreview: " ++ comment) 500) false =
            Except.ok ar ∧ ar.result = "success") ∧
      (process_and_approve_revisions alwaysSuccess oneApproved "Autoreview: ").1.summary =
        get_approval_summary oneApproved :=
  ⟨by decide,
    process_and_approve_invokes_action_once alwaysSuccess oneApproved "Autoreview: " (by decide)⟩

/-- C7: the orchestrator never raises — it is a total function into outcome
dicts whose summary is always the batch summary; with no approvable revision
it returns the structured failure with message `"No revisions can be
approved"`; and when the external action raises, the exception is caught and
returned as a structured failure with `success = false` and the error text,
still carrying the summary. -/
theorem process_and_approve_structured_failures
    (approve : Nat → String → Bool → Except String ApprovalActionResult)
    (results : List EvalResult) (commentPrefix : String) :
    (process_and_approve_revisions approve results commentPrefix).1.summary =
      get_approval_summary results ∧
    ((∀ r ∈ results, r.decision.status ≠ "approve") →
      (process_and_approve_revisions approve results commentPrefix).1 =
        { success := false, message := some "No revisions can be approved",
          error := none, rev_id := none, comment := none, approval_result := none,
          summary := get_approval_summary results }) ∧
    (∀ e, (∀ rid c u, approve rid c u = Except.error e) →
      (process_and_approve_revisions approve results commentPrefix).1.success = false ∧
      ((∃ r ∈ results, r.decision.status = "approve") →
        (process_and_approve_revisions approve results commentPrefix).1.error = some e)) := by
  refine ⟨?_, ?_, ?_⟩
  · rcases hg : generate_approval_comment results with ⟨fst, snd⟩
    cases fst with
    | none => simp [process_and_approve_revisions, hg]
    | some highest =>
        simp only [process_and_approve_revisions, hg]
        cases ha : approve highest (validate_comment_length (commentPrefix ++ snd) 500) false with
        | ok ar => simp [ha]
        | error e => simp [ha]
  · intro hall
    have hap : approvedOf results = [] := by
      simp only [approvedOf]
      rw [List.filter_eq_nil_iff]
      intro x hx
      simpa using hall x hx
    simp [process_and_approve_revisions, generate_eq_none hap]
  · intro e he
    cases hm : ((approvedOf results).map (fun x => x.revid)).max? with
    | none =>
        have hmap : (approvedOf results).map (fun x => x.revid) = [] :=
          List.max?_eq_none_iff.mp hm
        have hap : approvedOf results = [] := by simpa using hmap
        constructor
        · simp [process_and_approve_revisions, generate_eq_none hap]
        · rintro ⟨r, hr, hst⟩
          have hmem : r ∈ approvedOf results := List.mem_filter.mpr ⟨hr, by simp [hst]⟩
          rw [hap] at hmem
          exact absurd hmem (List.not_mem_nil _)
    | some highest =>
        have hgen := generate_eq_some hm
        constructor
        · simp [process_and_approve_revisions, hgen, he]
        · intro _
          simp [process_and_approve_revisions, hgen, he]

/-- An external approval action that always raises. -/
def alwaysRaise : Nat → String → Bool → Except String ApprovalActionResult :=
  fun _ _ _ => Except.error "boom"

/-- A single blocked result, for the structured-failure witness. -/
def oneBlocked : List EvalResult :=
  [⟨5, "blocked", "Cannot be auto-approved", "User is blocked"⟩]

/-- Witness for C7: with only a blocked revision the orchestrator returns the
structured no-approvals failure, and with an always-raising action on an
approvable input it returns a structured failure carrying the error text. -/
theorem process_and_approve_structured_failures_witness :
    ((∀ r ∈ oneBlocked, r.decision.status ≠ "approve") ∧
      (process_and_approve_revisions alwaysRaise oneBlocked "Autoreview: ").1 =
        { success := false, message := some "No revisions can be approved",
          error := none, rev_id := none, comment := none, approval_result := none,
          summary := get_approval_summary oneBlocked }) ∧
    ((∀ rid c u, alwaysRaise rid c u = Except.error "boom") ∧
      (process_and_approve_revisions alwaysRaise oneApproved "Autoreview: ").1.success =
        false ∧
      ((∃ r ∈ oneApproved, r.decision.status = "approve") →
        (process_and_approve_revisions alwaysRaise oneApproved "Autoreview: ").1.error =
          some "boom")) :=
  ⟨⟨by decide,
    (process_and_approve_structured_failures alwaysRaise oneBlocked "Autoreview: ").2.1
      (by decide)⟩,
   ⟨fun _ _ _ => rfl,
    (process_and_approve_structured_failures alwaysRaise oneApproved "Autoreview: ").2.2
      "boom" (fun _ _ _ => rfl)⟩⟩

/-- C8: batch processing returns an outcome for every page of the mapping, in
order, and each page's outcome is exactly the result of processing that page's
own results — so a failure (for example an external action that raises) while
processing one page neither prevents the processing of the other pages nor
removes any page's entry. -/
theorem batch_process_pages_isolates_pages
    (approve : Nat → String → Bool → Except String ApprovalActionResult)
    (pages : List (String × List EvalResult)) (commentPrefix : String) :
    (batch_process_pages approve pages commentPrefix).map Prod.fst = pages.map Prod.fst ∧
    ∀ t rs, (t, rs) ∈ pages →
      (t, (process_and_approve_revisions approve rs commentPrefix).1) ∈
        batch_process_pages approve pages commentPrefix := by
  constructor
  · simp [batch_process_pages]
  · intro t rs hmem
    exact List.mem_map.mpr ⟨(t, rs), hmem, rfl⟩

/-- A two-page batch whose first page raises in the external action. -/
def demoPages : List (String × List EvalResult) :=
  [("Page1", oneApproved),
   ("Page2", [⟨9, "approve", "Would be auto-approved", "No content change in last article"⟩])]

/-- Witness for C8: with an always-raising action, the second page still gets
its entry (and the key list is preserved). -/
theorem batch_process_pages_isolates_pages_witness :
    ((batch_process_pages alwaysRaise demoPages "Autoreview: ").map Prod.fst =
      demoPages.map Prod.fst) ∧
    ("Page2",
      [(⟨9, "approve", "Would be auto-approved", "No content change in last article"⟩ :
        EvalResult)]) ∈ demoPages ∧
    ("Page2",
      (process_and_approve_revisions alwaysRaise
        [⟨9, "approve", "Would be auto-approved", "No content change in last article"⟩]
        "Autoreview: ").1) ∈
      batch_process_pages alwaysRaise demoPages "Autoreview: " :=
  ⟨(batch_process_pages_isolates_pages alwaysRaise demoPages "Autoreview: ").1, by decide,
   (batch_process_pages_isolates_pages alwaysRaise demoPages "Autoreview: ").2 "Page2"
     [⟨9, "approve", "Would be auto-approved", "No content change in last article"⟩]
     (by decide)⟩

end PendingChangesBot
